import Mathlib

/-!
Verification of the payload-normalization engine of the gold-silver-tracker
server (`server.js`).  The engine flattens an arbitrarily shaped JSON payload
into leaf entries, parses numeric leaves, runs an ordered chain of heuristics
to resolve gold and silver per-gram prices plus a gram-to-ounce factor in the
requested currency, converts units, and builds a canonical response — or fails
with an extraction error carrying a bounded sample of the payload's top-level
keys.

Modelling conventions:
* JavaScript numbers are modelled by `JsNum`: an exact rational (`fin`), the
  two infinities, or `nan`.  Double-precision rounding/overflow is not
  modelled (rational arithmetic is exact); IEEE signed zero is not modelled.
* Arithmetic on the rational part is implemented through `Rat.divInt` on
  numerators/denominators (`qmul`, `qdiv`, `qadd`) so that all operations
  reduce inside the kernel; the lemmas `qmul_eq`, `qdiv_eq`, `qadd_eq` prove
  these equal to the field operations on `ℚ`.
* A payload string whose trimmed content starts with `{` or `[` and parses as
  JSON is represented by the constructor `Json.strEnc j`, carrying the decoded
  value `j`; a string represented by `Json.str s` is one that is not decodable
  JSON (the flattener's `JSON.parse` attempt fails or is not attempted).  This
  encodes the outcome of `JSON.parse`, which is not re-implemented here.
* `Number(s)` on strings is modelled by `jsStrToNum`, covering signed decimal
  literals with optional fraction and exponent and the `Infinity` literals;
  hexadecimal/octal/binary string literals are not modelled (no claim
  exercises them, and all quantified theorems use `parseNumber` abstractly).
* JavaScript's stable `Array.prototype.sort` with comparator
  `(a, b) => b.num - a.num` is modelled by a stable insertion sort descending
  by numeric value (`sortByNumDesc`); the comparator's behaviour on `NaN` is
  unspecified in JS and irrelevant here because candidates are `NaN`-free.
* `String.prototype.toLowerCase`/`toUpperCase`/`trim` are modelled on their
  ASCII fragment.
-/

/-- A JavaScript number: an exact rational, one of the infinities, or NaN. -/
inductive JsNum where
  | fin (q : ℚ)
  | inf
  | negInf
  | nan
deriving DecidableEq, Repr

/-- Multiplication on rationals through `Rat.divInt`, so it reduces in the
kernel (the kernel cannot unfold `Rat.mul`); `qmul_eq` bridges to `*`. -/
def qmul (a b : ℚ) : ℚ := Rat.divInt (a.num * b.num) ((a.den : Int) * (b.den : Int))

/-- Division on rationals through `Rat.divInt`; `qdiv_eq` bridges to `/`. -/
def qdiv (a b : ℚ) : ℚ := Rat.divInt (a.num * (b.den : Int)) ((a.den : Int) * b.num)

/-- Addition on rationals through `Rat.divInt`; `qadd_eq` bridges to `+`. -/
def qadd (a b : ℚ) : ℚ :=
  Rat.divInt (a.num * (b.den : Int) + b.num * (a.den : Int)) ((a.den : Int) * (b.den : Int))

theorem qmul_eq (a b : ℚ) : qmul a b = a * b := by
  rw [qmul, ← Rat.divInt_mul_divInt', Rat.num_divInt_den, Rat.num_divInt_den]

theorem qdiv_eq (a b : ℚ) : qdiv a b = a / b := by
  rw [qdiv, ← Rat.divInt_div_divInt, Rat.num_divInt_den, Rat.num_divInt_den]

theorem qadd_eq (a b : ℚ) : qadd a b = a + b := by
  rw [qadd, ← Rat.divInt_add_divInt _ _ (by exact_mod_cast a.den_nz) (by exact_mod_cast b.den_nz),
    Rat.num_divInt_den, Rat.num_divInt_den]

/-- Powers of ten with integer exponent, kernel-reducible. -/
def qzpow10 : Int → ℚ
  | .ofNat n => Rat.divInt (10 ^ n) 1
  | .negSucc n => Rat.divInt 1 (10 ^ (n + 1))

def JsNum.isNaN : JsNum → Bool
  | .nan => true
  | _ => false

def JsNum.isFinite : JsNum → Bool
  | .fin _ => true
  | _ => false

/-- JavaScript truthiness of a number: `0` and `NaN` are falsy. -/
def JsNum.truthy : JsNum → Bool
  | .fin q => decide (q ≠ 0)
  | .nan => false
  | _ => true

/-- JavaScript multiplication, with IEEE-style infinity and NaN propagation
(signed zero not modelled). -/
def jsMul : JsNum → JsNum → JsNum
  | .nan, _ => .nan
  | _, .nan => .nan
  | .fin p, .fin q => .fin (qmul p q)
  | .inf, .inf => .inf
  | .inf, .negInf => .negInf
  | .negInf, .inf => .negInf
  | .negInf, .negInf => .inf
  | .inf, .fin q => if 0 < q then .inf else if q < 0 then .negInf else .nan
  | .fin q, .inf => if 0 < q then .inf else if q < 0 then .negInf else .nan
  | .negInf, .fin q => if 0 < q then .negInf else if q < 0 then .inf else .nan
  | .fin q, .negInf => if 0 < q then .negInf else if q < 0 then .inf else .nan

/-- JavaScript division, with IEEE-style infinity and NaN propagation
(signed zero not modelled, so finite/0 uses the sign of the numerator). -/
def jsDiv : JsNum → JsNum → JsNum
  | .nan, _ => .nan
  | _, .nan => .nan
  | .fin p, .fin q =>
      if q = 0 then (if p = 0 then .nan else if 0 < p then .inf else .negInf)
      else .fin (qdiv p q)
  | .fin _, .inf => .fin 0
  | .fin _, .negInf => .fin 0
  | .inf, .fin q => if 0 ≤ q then .inf else .negInf
  | .negInf, .fin q => if 0 ≤ q then .negInf else .inf
  | .inf, .inf => .nan
  | .inf, .negInf => .nan
  | .negInf, .inf => .nan
  | .negInf, .negInf => .nan

/-- Rank used to order the non-finite values below/above all finite ones. -/
def JsNum.rank : JsNum → Nat
  | .nan => 0
  | .negInf => 1
  | .fin _ => 2
  | .inf => 3

/-- Numeric comparison used by the sorting model: the usual order on finite
values, `negInf` below and `inf` above every finite value.  (`nan` never
occurs among sort candidates; it is placed at the bottom to keep the
relation total.) -/
def jsLeB : JsNum → JsNum → Bool
  | .fin p, .fin q => decide (p ≤ q)
  | a, b => decide (a.rank ≤ b.rank)

/- The JSON data model.  `Json.strEnc j` is a string whose trimmed content
starts with a brace or a square bracket and decodes (via `JSON.parse`) to the
value `j`; `Json.str s` is any other string.  Objects and arrays carry their
own spines so that all recursion over `Json` is structural and
kernel-reducible. -/
mutual
inductive Json where
  | num (n : JsNum)
  | str (s : String)
  | strEnc (j : Json)
  | bool (b : Bool)
  | null
  | arr (xs : JsonArr)
  | obj (fs : JsonObj)
inductive JsonArr where
  | nil
  | cons (hd : Json) (tl : JsonArr)
inductive JsonObj where
  | nil
  | cons (key : String) (val : Json) (tl : JsonObj)
end

/-- A leaf value as stored by the flattener: string, number, boolean or null. -/
inductive Leaf where
  | num (n : JsNum)
  | str (s : String)
  | bool (b : Bool)
  | null
deriving DecidableEq, Repr

/-- One flattened entry: full path, terminal key, raw leaf value
(`{ path, key, value }` in the source). -/
structure FlatEntry where
  path : String
  key : String
  value : Leaf
deriving DecidableEq, Repr

/-- The segment of `p` after its last dot — `p.split('.').pop()`. -/
def lastSeg : List Char → List Char → List Char
  | [], acc => acc.reverse
  | '.' :: rest, _ => lastSeg rest []
  | c :: rest, acc => lastSeg rest (c :: acc)

/-- Terminal key of a path: `path ? path.split('.').pop() : ''`. -/
def keyOf (p : String) : String :=
  if p = "" then "" else String.mk (lastSeg p.toList [])

/- The flattener (`flatten`'s inner `helper` in the source): scalars become
one leaf entry at the current path; a JSON-decodable string (`strEnc`)
is traversed at the same path; objects append `.key`, arrays `[i]`. -/
mutual
def flattenHelper : Json → String → List FlatEntry
  | .num n, p => [⟨p, keyOf p, .num n⟩]
  | .str s, p => [⟨p, keyOf p, .str s⟩]
  | .strEnc j, p => flattenHelper j p
  | .bool b, p => [⟨p, keyOf p, .bool b⟩]
  | .null, p => [⟨p, keyOf p, .null⟩]
  | .arr xs, p => flattenArr xs p 0
  | .obj fs, p => flattenObj fs p
def flattenArr : JsonArr → String → Nat → List FlatEntry
  | .nil, _, _ => []
  | .cons x xs, p, i =>
      flattenHelper x (p ++ "[" ++ toString i ++ "]") ++ flattenArr xs p (i + 1)
def flattenObj : JsonObj → String → List FlatEntry
  | .nil, _ => []
  | .cons k v fs, p =>
      flattenHelper v (if p = "" then k else p ++ "." ++ k) ++ flattenObj fs p
end

/-- `flatten(data)`: flattening from the root with empty prefix. -/
def flatten (j : Json) : List FlatEntry := flattenHelper j ""

/-- ASCII model of `String.prototype.toLowerCase`. -/
def lowerStr (s : String) : String := String.mk (s.toList.map Char.toLower)

/-- ASCII model of `String.prototype.toUpperCase`. -/
def upperStr (s : String) : String := String.mk (s.toList.map Char.toUpper)

/-- Whitespace recognized by the model of `String.prototype.trim`. -/
def jsWhitespace (c : Char) : Bool :=
  c = ' ' || c = '\t' || c = '\n' || c = '\r' || c = '\x0b' || c = '\x0c'

def trimChars (cs : List Char) : List Char :=
  ((cs.dropWhile jsWhitespace).reverse.dropWhile jsWhitespace).reverse

/-- Model of `String.prototype.trim`. -/
def jsTrim (s : String) : String := String.mk (trimChars s.toList)

/-- Whether `sub` occurs contiguously in `l` (`String.prototype.includes`). -/
def hasSub : List Char → List Char → Bool
  | [], sub => sub.isEmpty
  | c :: rest, sub => sub.isPrefixOf (c :: rest) || hasSub rest sub

/-- Model of `s.includes(sub)`. -/
def strIncludes (s sub : String) : Bool := hasSub s.toList sub.toList

/-- Model of `s.endsWith(suf)`. -/
def strEndsWith (s suf : String) : Bool := suf.toList.isSuffixOf s.toList

/-- Digit run to a natural number (used on all-digit runs only). -/
def natOfDigits (cs : List Char) : Nat :=
  cs.foldl (fun n c => 10 * n + (c.toNat - '0'.toNat)) 0

/-- Unsigned part of JavaScript's string-to-number grammar: digits with an
optional fraction and optional exponent; `none` when the text is not such a
literal (so `Number` yields NaN). -/
def parseUnsigned (cs : List Char) : Option ℚ :=
  let ip := cs.takeWhile Char.isDigit
  let rest := cs.dropWhile Char.isDigit
  let fp :=
    match rest with
    | '.' :: r => r.takeWhile Char.isDigit
    | _ => []
  let rest2 :=
    match rest with
    | '.' :: r => r.dropWhile Char.isDigit
    | _ => rest
  if ip.isEmpty && fp.isEmpty then none
  else
    let mant : ℚ :=
      qadd (Rat.divInt (natOfDigits ip) 1)
        (Rat.divInt (natOfDigits fp) ((10 : Int) ^ fp.length))
    match rest2 with
    | [] => some mant
    | e :: r3 =>
      if e = 'e' || e = 'E' then
        let sgn : Int :=
          match r3 with
          | '-' :: _ => -1
          | _ => 1
        let r4 :=
          match r3 with
          | '+' :: t => t
          | '-' :: t => t
          | t => t
        let ed := r4.takeWhile Char.isDigit
        let r5 := r4.dropWhile Char.isDigit
        if ed.isEmpty || !r5.isEmpty then none
        else some (qmul mant (qzpow10 (sgn * (natOfDigits ed : Int))))
      else none

/-- Model of `Number(s)` on an already-trimmed, non-empty string: the
`Infinity` literals, else an optionally signed decimal literal, else NaN. -/
def jsStrToNum (s : String) : JsNum :=
  if s = "Infinity" || s = "+Infinity" then .inf
  else if s = "-Infinity" then .negInf
  else
    match s.toList with
    | '+' :: r =>
      match parseUnsigned r with
      | some q => .fin q
      | none => .nan
    | '-' :: r =>
      match parseUnsigned r with
      | some q => .fin (-q)
      | none => .nan
    | r =>
      match parseUnsigned r with
      | some q => .fin q
      | none => .nan

/-- `parseNumber` from the source: a non-NaN native number is returned as-is;
a string is trimmed, the empty string yields `none`, otherwise the converted
number is returned unless the conversion is NaN; all other kinds yield
`none`. -/
def parseNumber : Leaf → Option JsNum
  | .num n => if n.isNaN then none else some n
  | .str v =>
      let s := jsTrim v
      if s = "" then none
      else
        let n := jsStrToNum s
        if n.isNaN then none else some n
  | _ => none

/-- Lower-cased terminal key of an entry (`lc(e.key)` in the source; the
source's `lc` maps a falsy value to the empty string, which coincides with
lower-casing the empty string). -/
def lcKey (e : FlatEntry) : String := lowerStr e.key

/-- Lower-cased full path of an entry (`lc(e.path)`). -/
def lcPath (e : FlatEntry) : String := lowerStr e.path

/-- First entry whose lower-cased key contains every given substring
(`pickByKeyIncludes`). -/
def pickByKeyIncludes (entries : List FlatEntry) (subs : List String) : Option FlatEntry :=
  entries.find? (fun e => subs.all (fun sub => strIncludes (lcKey e) sub))

/-- First entry whose lower-cased key equals `k` or whose lower-cased path
ends in `"." ++ k` (the source's `findKey` and the step-2 searches). -/
def findKeyEq (entries : List FlatEntry) (k : String) : Option FlatEntry :=
  entries.find? (fun e => lcKey e == k || strEndsWith (lcPath e) ("." ++ k))

/-- A step of the heuristic chain: keep an already-resolved value, otherwise
take the candidate entry's parsed value (each source step is guarded by
`if (field == null)` and assigns only when `parseNumber` succeeds). -/
def resolveStep (old : Option JsNum) (cand : Option FlatEntry) : Option JsNum :=
  match old with
  | some n => some n
  | none => cand.bind (fun e => parseNumber e.value)

/-- Step 1 for gold: first key containing both substrings (the source's `g1`). -/
def step1Gold (entries : List FlatEntry) : Option JsNum :=
  (pickByKeyIncludes entries ["gold", "gram"]).bind (fun e => parseNumber e.value)

/-- Step 1 for silver (the source's `s1`). -/
def step1Silver (entries : List FlatEntry) : Option JsNum :=
  (pickByKeyIncludes entries ["silver", "gram"]).bind (fun e => parseNumber e.value)

/-- Step 2 gold candidate: `gram_in_<currency>` by key or path suffix. -/
def step2GoldEntry (entries : List FlatEntry) (c : String) : Option FlatEntry :=
  findKeyEq entries ("gram_in_" ++ c)

/-- Step 2 silver candidate: `silver_gram_in_<currency>`. -/
def step2SilverEntry (entries : List FlatEntry) (c : String) : Option FlatEntry :=
  findKeyEq entries ("silver_gram_in_" ++ c)

/-- Step 3 gold candidate: key equal to `gram`, or containing `gram_in`. -/
def step3GoldEntry (entries : List FlatEntry) : Option FlatEntry :=
  entries.find? (fun e => lcKey e == "gram" || strIncludes (lcKey e) "gram_in")

/-- Step 3 silver candidate: key equal to `silver`, or containing
`silver_gram`. -/
def step3SilverEntry (entries : List FlatEntry) : Option FlatEntry :=
  entries.find? (fun e => lcKey e == "silver" || strIncludes (lcKey e) "silver_gram")

/-- Step 4 gold candidate: `xau` in key or path. -/
def step4GoldEntry (entries : List FlatEntry) : Option FlatEntry :=
  entries.find? (fun e => strIncludes (lcKey e) "xau" || strIncludes (lcPath e) "xau")

/-- Step 4 silver candidate: `xag` in key or path. -/
def step4SilverEntry (entries : List FlatEntry) : Option FlatEntry :=
  entries.find? (fun e => strIncludes (lcKey e) "xag" || strIncludes (lcPath e) "xag")

/-- Gold after steps 1 and 2. -/
def goldAfter2 (entries : List FlatEntry) (c : String) : Option JsNum :=
  resolveStep (step1Gold entries) (step2GoldEntry entries c)

/-- Gold after steps 1-3. -/
def goldAfter3 (entries : List FlatEntry) (c : String) : Option JsNum :=
  resolveStep (goldAfter2 entries c) (step3GoldEntry entries)

/-- Gold after steps 1-4. -/
def goldAfter4 (entries : List FlatEntry) (c : String) : Option JsNum :=
  resolveStep (goldAfter3 entries c) (step4GoldEntry entries)

/-- Silver after steps 1 and 2. -/
def silverAfter2 (entries : List FlatEntry) (c : String) : Option JsNum :=
  resolveStep (step1Silver entries) (step2SilverEntry entries c)

/-- Silver after steps 1-3. -/
def silverAfter3 (entries : List FlatEntry) (c : String) : Option JsNum :=
  resolveStep (silverAfter2 entries c) (step3SilverEntry entries)

/-- Silver after steps 1-4. -/
def silverAfter4 (entries : List FlatEntry) (c : String) : Option JsNum :=
  resolveStep (silverAfter3 entries c) (step4SilverEntry entries)

/-- A sort candidate: an entry together with its parsed numeric value
(`{...e, num: parseNumber(e.value)}`). -/
structure Cand where
  entry : FlatEntry
  num : JsNum
deriving DecidableEq, Repr

/-- Descending-by-number ordering on candidates, as produced by the stable
JavaScript sort with comparator `(a, b) => b.num - a.num`. -/
def candGE (a b : Cand) : Prop := jsLeB b.num a.num = true

instance : DecidableRel candGE := fun a b => by
  unfold candGE
  infer_instance

/-- Stable descending sort by numeric value. -/
def sortByNumDesc (l : List Cand) : List Cand := l.insertionSort candGE

/-- Pair each entry with its parsed value (the `.map` of the source; the
`filterMap` never drops an element because the preceding filter requires
`parseNumber` to succeed). -/
def toCands (l : List FlatEntry) : List Cand :=
  l.filterMap (fun e => (parseNumber e.value).map (fun n => Cand.mk e n))

/-- Step 5 filter: key contains `gram`, value parses, and — for non-USD
requests — the key does not mention `usd`. -/
def gramCandFilter (c : String) (e : FlatEntry) : Bool :=
  strIncludes (lcKey e) "gram" && (parseNumber e.value).isSome &&
    (c == "usd" || !strIncludes (lcKey e) "usd")

/-- Step 5 candidates: filtered, parsed and sorted descending
(`gramCandidates`). -/
def gramCandidates (entries : List FlatEntry) (c : String) : List Cand :=
  sortByNumDesc (toCands (entries.filter (gramCandFilter c)))

/-- Step 6 filter: any parseable value whose key does not suggest a timestamp,
again excluding `usd`-tagged keys for non-USD requests. -/
def numericFilter (c : String) (e : FlatEntry) : Bool :=
  (parseNumber e.value).isSome && !strIncludes (lcKey e) "gmt" &&
    !strIncludes (lcKey e) "updated" && !strIncludes (lcKey e) "time" &&
    (c == "usd" || !strIncludes (lcKey e) "usd")

/-- Step 6 candidates (`numericEntries`). -/
def numericCandidates (entries : List FlatEntry) (c : String) : List Cand :=
  sortByNumDesc (toCands (entries.filter (numericFilter c)))

/-- Assign the largest candidate to a still-unresolved gold and the
second-largest to a still-unresolved silver (the two guarded assignments of
steps 5 and 6). -/
def assignTopTwo (g s : Option JsNum) (cands : List Cand) : Option JsNum × Option JsNum :=
  ((match g, cands with
    | none, x :: _ => some x.num
    | g', _ => g'),
   (match s, cands with
    | none, _ :: y :: _ => some y.num
    | s', _ => s'))

/-- Step 5: runs only when gold or silver is still unresolved. -/
def afterStep5 (g s : Option JsNum) (entries : List FlatEntry) (c : String) :
    Option JsNum × Option JsNum :=
  if g.isNone || s.isNone then assignTopTwo g s (gramCandidates entries c)
  else (g, s)

/-- Step 6: runs only when gold or silver is still unresolved. -/
def afterStep6 (g s : Option JsNum) (entries : List FlatEntry) (c : String) :
    Option JsNum × Option JsNum :=
  if g.isNone || s.isNone then assignTopTwo g s (numericCandidates entries c)
  else (g, s)

/-- Gold and silver per-gram prices after heuristic steps 1-6, before the
per-ounce post-processing. -/
def heuristicPrices (entries : List FlatEntry) (c : String) : Option JsNum × Option JsNum :=
  afterStep6 (afterStep5 (goldAfter4 entries c) (silverAfter4 entries c) entries c).1
    (afterStep5 (goldAfter4 entries c) (silverAfter4 entries c) entries c).2 entries c

/-- The `gram_to_ounce` search (the source's `gto`; the second disjunct of the
source predicate is subsumed by the first, and is kept for fidelity). -/
def gtoEntry (entries : List FlatEntry) : Option FlatEntry :=
  entries.find? (fun e =>
    strIncludes (lcKey e) "gram_to_ounce" || strIncludes (lcKey e) "gram_to_ounce_formula")

/-- The resolved gram-to-ounce factor before the default is applied
(the source's `gramToOunce` variable after line 260). -/
def gramToOunceResolved (entries : List FlatEntry) : Option JsNum :=
  (gtoEntry entries).bind (fun e => parseNumber e.value)

/-- The silver per-ounce-in-target-currency entry (`sOunce`): exact
`silver_ounce_in_<currency>` key/path match, else the first key containing
both `silver_ounce` and the currency. -/
def sOunceEntry (entries : List FlatEntry) (c : String) : Option FlatEntry :=
  (findKeyEq entries ("silver_ounce_in_" ++ c)).orElse
    (fun _ => entries.find? (fun e =>
      strIncludes (lcKey e) "silver_ounce" && strIncludes (lcKey e) c))

/-- The gold per-ounce-in-target-currency entry (`gOunce`): exact
`ounce_in_<currency>` key/path match, else the first key containing both
`ounce` and the currency. -/
def gOunceEntry (entries : List FlatEntry) (c : String) : Option FlatEntry :=
  (findKeyEq entries ("ounce_in_" ++ c)).orElse
    (fun _ => entries.find? (fun e =>
      strIncludes (lcKey e) "ounce" && strIncludes (lcKey e) c))

/-- `(cand && parseNumber(cand.value) != null && gramToOunce)
? parseNumber(cand.value) * gramToOunce : null` — a per-gram value derived
from a per-ounce entry; requires the factor variable to be truthy. -/
def fromOunce (cand : Option FlatEntry) (gto : Option JsNum) : Option JsNum :=
  match cand, gto with
  | some e, some f =>
      match parseNumber e.value with
      | some v => if f.truthy then some (jsMul v f) else none
      | none => none
  | _, _ => none

/-- The source's `silverFromOunce`. -/
def silverFromOunce (entries : List FlatEntry) (c : String) (gto : Option JsNum) : Option JsNum :=
  fromOunce (sOunceEntry entries c) gto

/-- The source's `goldFromOunce`. -/
def goldFromOunce (entries : List FlatEntry) (c : String) (gto : Option JsNum) : Option JsNum :=
  fromOunce (gOunceEntry entries c) gto

/-- The per-ounce preference: for non-USD requests the derived values replace
any heuristic result; for USD they only fill still-unresolved fields. -/
def applyOuncePreference (c : String) (g s gFromO sFromO : Option JsNum) :
    Option JsNum × Option JsNum :=
  if c == "usd" then
    ((match g, gFromO with
      | none, some x => some x
      | g', _ => g'),
     (match s, sFromO with
      | none, some x => some x
      | s', _ => s'))
  else
    ((match gFromO with
      | some x => some x
      | none => g),
     (match sFromO with
      | some x => some x
      | none => s))

/-- Final gold and silver per-gram prices: heuristics 1-6 followed by the
per-ounce post-processing (the state of `goldPerGram`/`silverPerGram` at the
source's line 292 null-check). -/
def resolvedPrices (data : Json) (c : String) : Option JsNum × Option JsNum :=
  applyOuncePreference c
    (heuristicPrices (flatten data) c).1 (heuristicPrices (flatten data) c).2
    (goldFromOunce (flatten data) c (gramToOunceResolved (flatten data)))
    (silverFromOunce (flatten data) c (gramToOunceResolved (flatten data)))

/-- First binding of a key in an object spine (parsed JSON objects have
unique keys). -/
def objFind : JsonObj → String → Option Json
  | .nil, _ => none
  | .cons k v tl, key => if k == key then some v else objFind tl key

/-- JavaScript property access `data[k]` on the payload (non-objects have no
named fields). -/
def topField : Json → String → Option Json
  | .obj fs, k => objFind fs k
  | _, _ => none

/-- A field access combined with `??`: `null`/absent both propagate. -/
def nullishGet (data : Json) (k : String) : Option Json :=
  match topField data k with
  | some .null => none
  | some v => some v
  | none => none

/-- Model of JavaScript `ToNumber` coercion of a payload value (applied by
the division/multiplication when the line-288 fallback picked a raw field).
Object/array-to-primitive coercion is modelled as NaN; a `strEnc` string's
text starts with a brace or bracket, so `Number` on it is NaN. -/
def toNumber : Json → JsNum
  | .num n => n
  | .str v =>
      let s := jsTrim v
      if s = "" then .fin 0 else jsStrToNum s
  | .strEnc _ => .nan
  | .bool b => .fin (if b then 1 else 0)
  | .null => .fin 0
  | .arr _ => .nan
  | .obj _ => .nan

/-- The factor used for unit conversion: the resolved `gram_to_ounce` entry
when present, else the raw top-level `gram_to_ounce_formula` / `gram_to_ounce`
fields, else the fixed default `0.0321507` (source line 288). -/
def gramToOunceFinal (data : Json) (entries : List FlatEntry) : JsNum :=
  match gramToOunceResolved entries with
  | some n => n
  | none =>
    match nullishGet data "gram_to_ounce_formula" with
    | some v => toNumber v
    | none =>
      match nullishGet data "gram_to_ounce" with
      | some v => toNumber v
      | none => .fin (mkRat 321507 10000000)

def objKeys : JsonObj → List String
  | .nil => []
  | .cons k _ tl => k :: objKeys tl

def arrLen : JsonArr → Nat
  | .nil => 0
  | .cons _ tl => arrLen tl + 1

/-- Model of `Object.keys(data)`: field names of an object, index strings of
an array or of a plain string's characters, empty otherwise.  (For a
`strEnc` string the character count of the undecoded text is not retained by
the model; no claim exercises that corner.) -/
def topKeys : Json → List String
  | .obj fs => objKeys fs
  | .arr xs => (List.range (arrLen xs)).map (fun i => toString i)
  | .str s => (List.range s.length).map (fun i => toString i)
  | _ => []

/-- JavaScript truthiness of a payload value. -/
def jsonTruthy : Json → Bool
  | .null => false
  | .bool b => b
  | .num n => n.truthy
  | .str s => !(s == "")
  | .strEnc _ => true
  | .arr _ => true
  | .obj _ => true

/-- `x || null`: keep a truthy value, otherwise null. -/
def orNullTruthy (v : Option Json) : Option Json :=
  match v with
  | some x => if jsonTruthy x then some x else none
  | none => none

/-- `updatedFx || updatedUsd` of the response builder: prefer the
currency-scoped update marker, else the USD-ounce one, else null. -/
def updatedOf (data : Json) (c : String) : Option Json :=
  (orNullTruthy (topField data ("gmt_" ++ c ++ "_updated"))).orElse
    (fun _ => orNullTruthy (topField data "gmt_ounce_price_usd_updated"))

/-- Per-metal block of the canonical record. -/
structure MetalRates where
  perGram : JsNum
  perOunce : JsNum
  perKg : JsNum

/-- The canonical output record. -/
structure CanonicalRates where
  currency : String
  gold : MetalRates
  silver : MetalRates
  updated : Option Json

/-- Outcome of an extraction: the canonical record, or the 502
`ExtractionError` body carrying a bounded sample of the payload's top-level
keys. -/
inductive ApiResult where
  | ok (r : CanonicalRates)
  | extractionError (keys : List String)

/-- Unit conversion and response building (source lines 300-329):
`perOunce = perGram / gramToOunce`, `perKg = perGram * 1000`, upper-cased
currency echo and best-effort update timestamp. -/
def buildRates (data : Json) (c : String) (g s : JsNum) : CanonicalRates :=
  { currency := upperStr c
  , gold := ⟨g, jsDiv g (gramToOunceFinal data (flatten data)), jsMul g (.fin 1000)⟩
  , silver := ⟨s, jsDiv s (gramToOunceFinal data (flatten data)), jsMul s (.fin 1000)⟩
  , updated := updatedOf data c }

/-- The whole extraction pipeline on the (already unwrapped/merged) payload
and the lower-cased requested currency: heuristics, per-ounce
post-processing, the null-check with its 502 error carrying at most 50
top-level keys, unit conversion and response building (source lines
155-329). -/
def extractRates (data : Json) (c : String) : ApiResult :=
  match resolvedPrices data c with
  | (some g, some s) => .ok (buildRates data c g s)
  | _ => .extractionError ((topKeys data).take 50)

/-- Gold per-gram component of a result, when it succeeded. -/
def goldPerGramOf : ApiResult → Option JsNum
  | .ok r => some r.gold.perGram
  | _ => none

/-- Silver per-gram component of a result, when it succeeded. -/
def silverPerGramOf : ApiResult → Option JsNum
  | .ok r => some r.silver.perGram
  | _ => none

/-- Gold per-kilogram component of a result, when it succeeded. -/
def goldPerKgOf : ApiResult → Option JsNum
  | .ok r => some r.gold.perKg
  | _ => none

/-- Error keys of a result, when it failed. -/
def errKeysOf : ApiResult → Option (List String)
  | .extractionError ks => some ks
  | _ => none

/-- Scenario A payload: `{ gold_gram_in_usd: 100, silver_gram_in_usd: 1.2 }`. -/
def payloadA : Json :=
  .obj (.cons "gold_gram_in_usd" (.num (.fin 100))
    (.cons "silver_gram_in_usd" (.num (.fin (mkRat 6 5))) .nil))

/-- A payload with a silver per-ounce field in INR but no gram-to-ounce
factor field:
`{ silver_ounce_in_inr: 93000, gold_gram: 100, silver_gram: 2 }`. -/
def payloadNoFactor : Json :=
  .obj (.cons "silver_ounce_in_inr" (.num (.fin 93000))
    (.cons "gold_gram" (.num (.fin 100))
      (.cons "silver_gram" (.num (.fin 2)) .nil)))

/-- The previous payload with a factor field added:
`{ gram_to_ounce: 0.0321507, silver_ounce_in_inr: 93000, gold_gram: 100,
silver_gram: 2 }`. -/
def payloadWithFactor : Json :=
  .obj (.cons "gram_to_ounce" (.num (.fin (mkRat 321507 10000000)))
    (.cons "silver_ounce_in_inr" (.num (.fin 93000))
      (.cons "gold_gram" (.num (.fin 100))
        (.cons "silver_gram" (.num (.fin 2)) .nil))))

/-- A payload with two distinct parseable gold-gram keys:
`{ gold_gram_a: 5, gold_gram_b: 9, silver_gram: 1 }`. -/
def payloadTwoGold : Json :=
  .obj (.cons "gold_gram_a" (.num (.fin 5))
    (.cons "gold_gram_b" (.num (.fin 9))
      (.cons "silver_gram" (.num (.fin 1)) .nil)))

/-- Scenario C payload: two numeric gram-suffixed keys, no metal-specific
keys: `{ a_gram: 85, b_gram: 1.05 }`. -/
def payloadGramPair : Json :=
  .obj (.cons "a_gram" (.num (.fin 85))
    (.cons "b_gram" (.num (.fin (mkRat 21 20))) .nil))

/-- A payload with a foreign-currency gram key but no key equal to `gram`:
`{ gram_in_eur: 50, xau_price: 70, silver_gram: 2 }`. -/
def payloadGramInEur : Json :=
  .obj (.cons "gram_in_eur" (.num (.fin 50))
    (.cons "xau_price" (.num (.fin 70))
      (.cons "silver_gram" (.num (.fin 2)) .nil)))

/-- A payload whose first `ounce`+currency key is a gold one:
`{ gram_to_ounce: 0.0321507, gold_ounce_in_inr: 200000,
silver_ounce_in_inr: 93000, silver_gram: 2 }`. -/
def payloadGoldOunceFirst : Json :=
  .obj (.cons "gram_to_ounce" (.num (.fin (mkRat 321507 10000000)))
    (.cons "gold_ounce_in_inr" (.num (.fin 200000))
      (.cons "silver_ounce_in_inr" (.num (.fin 93000))
        (.cons "silver_gram" (.num (.fin 2)) .nil))))

/-- `payloadGoldOunceFirst` without the gold ounce key. -/
def payloadSilverOunceOnly : Json :=
  .obj (.cons "gram_to_ounce" (.num (.fin (mkRat 321507 10000000)))
    (.cons "silver_ounce_in_inr" (.num (.fin 93000))
      (.cons "silver_gram" (.num (.fin 2)) .nil)))

/-- Scenario D payload: nothing resolvable: `{ foo: "bar" }`. -/
def payloadUnresolvable : Json :=
  .obj (.cons "foo" (.str "bar") .nil)


theorem resolveStep_some (n : JsNum) (cand : Option FlatEntry) :
    resolveStep (some n) cand = some n := rfl

theorem assignTopTwo_fst_some (n : JsNum) (s : Option JsNum) (cands : List Cand) :
    (assignTopTwo (some n) s cands).1 = some n := by
  cases cands <;> rfl

theorem assignTopTwo_snd_some (g : Option JsNum) (n : JsNum) (cands : List Cand) :
    (assignTopTwo g (some n) cands).2 = some n := by
  cases cands with
  | nil => rfl
  | cons x xs => cases xs <;> rfl

theorem afterStep5_fst_some (n : JsNum) (s : Option JsNum) (entries : List FlatEntry)
    (c : String) : (afterStep5 (some n) s entries c).1 = some n := by
  unfold afterStep5
  split
  · exact assignTopTwo_fst_some n s _
  · rfl

theorem afterStep5_snd_some (g : Option JsNum) (n : JsNum) (entries : List FlatEntry)
    (c : String) : (afterStep5 g (some n) entries c).2 = some n := by
  unfold afterStep5
  split
  · exact assignTopTwo_snd_some g n _
  · rfl

theorem afterStep6_fst_some (n : JsNum) (s : Option JsNum) (entries : List FlatEntry)
    (c : String) : (afterStep6 (some n) s entries c).1 = some n := by
  unfold afterStep6
  split
  · exact assignTopTwo_fst_some n s _
  · rfl

theorem afterStep6_snd_some (g : Option JsNum) (n : JsNum) (entries : List FlatEntry)
    (c : String) : (afterStep6 g (some n) entries c).2 = some n := by
  unfold afterStep6
  split
  · exact assignTopTwo_snd_some g n _
  · rfl

theorem heuristicPrices_fst_some (entries : List FlatEntry) (c : String) (n : JsNum)
    (h : goldAfter4 entries c = some n) : (heuristicPrices entries c).1 = some n := by
  unfold heuristicPrices
  rw [h, afterStep5_fst_some]
  exact afterStep6_fst_some n _ entries c

theorem heuristicPrices_snd_some (entries : List FlatEntry) (c : String) (n : JsNum)
    (h : silverAfter4 entries c = some n) : (heuristicPrices entries c).2 = some n := by
  unfold heuristicPrices
  rw [h, afterStep5_snd_some]
  exact afterStep6_snd_some _ n entries c

theorem jsLeB_refl (a : JsNum) : jsLeB a a = true := by
  cases a <;> simp [jsLeB]

theorem jsLeB_trans {a b c : JsNum} (h1 : jsLeB a b = true) (h2 : jsLeB b c = true) :
    jsLeB a c = true := by
  cases a <;> cases b <;> cases c <;>
    simp_all [jsLeB, JsNum.rank]
  exact le_trans h1 h2

theorem jsLeB_total (a b : JsNum) : jsLeB a b = true ∨ jsLeB b a = true := by
  cases a <;> cases b <;> simp [jsLeB, JsNum.rank]
  exact le_total _ _

instance : IsTotal Cand candGE :=
  ⟨fun a b => (jsLeB_total b.num a.num).imp id id⟩

instance : IsTrans Cand candGE :=
  ⟨fun _ _ _ h1 h2 => jsLeB_trans h2 h1⟩

theorem sortByNumDesc_sorted (l : List Cand) : (sortByNumDesc l).Pairwise candGE :=
  List.sorted_insertionSort candGE l

theorem pairwise_head_max {x : Cand} {xs : List Cand}
    (h : (x :: xs).Pairwise candGE) : ∀ z ∈ x :: xs, jsLeB z.num x.num = true := by
  intro z hz
  rcases List.mem_cons.mp hz with hz | hz
  · subst hz
    exact jsLeB_refl _
  · exact (List.pairwise_cons.mp h).1 z hz

theorem fromOunce_some {e : FlatEntry} {f v : JsNum}
    (hv : parseNumber e.value = some v) (hf : f.truthy = true) :
    fromOunce (some e) (some f) = some (jsMul v f) := by
  simp [fromOunce, hv, hf]

theorem applyOunce_nonUsd_fst {c : String} (hc : c ≠ "usd")
    (g s sF : Option JsNum) (x : JsNum) :
    (applyOuncePreference c g s (some x) sF).1 = some x := by
  have hb : (c == "usd") = false := beq_eq_false_iff_ne.mpr hc
  simp [applyOuncePreference, hb]

theorem applyOunce_nonUsd_snd {c : String} (hc : c ≠ "usd")
    (g s gF : Option JsNum) (x : JsNum) :
    (applyOuncePreference c g s gF (some x)).2 = some x := by
  have hb : (c == "usd") = false := beq_eq_false_iff_ne.mpr hc
  simp [applyOuncePreference, hb]

theorem applyOunce_usd_snd_keep (g gF sF : Option JsNum) (x : JsNum) :
    (applyOuncePreference "usd" g (some x) gF sF).2 = some x := by
  cases sF <;> rfl

theorem applyOunce_usd_snd_fill (g gF : Option JsNum) (x : JsNum) :
    (applyOuncePreference "usd" g none gF (some x)).2 = some x := rfl

/-- Embed a leaf value back into a payload value. -/
def leafToJson : Leaf → Json
  | .num n => .num n
  | .str s => .str s
  | .bool b => .bool b
  | .null => .null

/-- Spine of leaf-only single-field objects, one per flat entry. -/
def reconstructArr : List FlatEntry → JsonArr
  | [] => .nil
  | e :: es => .cons (.obj (.cons e.key (leafToJson e.value) .nil)) (reconstructArr es)

/-- Reconstruct a flattening result as a payload of leaf-only objects with
one key-value pair per flat entry. -/
def reconstruct (es : List FlatEntry) : Json := .arr (reconstructArr es)

theorem flattenHelper_leafToJson (v : Leaf) (p : String) :
    flattenHelper (leafToJson v) p = [⟨p, keyOf p, v⟩] := by
  cases v <;> rfl

theorem flattenArr_reconstruct_values (es : List FlatEntry) (p : String) (i : Nat) :
    (flattenArr (reconstructArr es) p i).map FlatEntry.value = es.map FlatEntry.value := by
  induction es generalizing i with
  | nil => rfl
  | cons e es ih =>
    simp [reconstructArr, flattenArr, flattenHelper, flattenObj, flattenHelper_leafToJson, ih]

/-- C6 (amended): `parseNumber` is total and never returns NaN, but it can
return a non-finite number: a native number that is not NaN — including the
infinities — is returned unchanged; a string is trimmed and, if empty,
yields absence, otherwise yields the converted number whenever the
conversion is not NaN; booleans and null yield absence.  `"123.45"` parses
to `123.45`, `""`, `true` are absent, and `42` is returned unchanged. -/
theorem claim_C6_parseNumber_amended :
    (∀ v n, parseNumber v = some n → n.isNaN = false) ∧
    parseNumber (.str "123.45") = some (.fin (mkRat 12345 100)) ∧
    parseNumber (.str "") = none ∧
    parseNumber (.bool true) = none ∧
    parseNumber (.num (.fin 42)) = some (.fin 42) := by
  refine ⟨?_, by decide, by decide, by decide, by decide⟩
  intro v n h
  cases v with
  | num m =>
    simp only [parseNumber] at h
    split at h
    · exact absurd h (by simp)
    · next hm =>
      cases h
      simpa using hm
  | str s =>
    simp only [parseNumber] at h
    split at h
    · exact absurd h (by simp)
    · split at h
      · exact absurd h (by simp)
      · next hm =>
        cases h
        simpa using hm
  | bool b => exact absurd h (by simp [parseNumber])
  | null => exact absurd h (by simp [parseNumber])

/-- C6 counterexample: the claim asserts that every non-absent result of
`parseNumber` is finite, but a native `Infinity` passes the NaN-only guard
and is returned as-is (and so does the string `"Infinity"`), so the result
is not finite. -/
theorem claim_C6_parseNumber_counterexample :
    parseNumber (.num .inf) = some .inf ∧ JsNum.isFinite .inf = false ∧
    parseNumber (.str "Infinity") = some .inf := by decide

/-- C6 witness: the amended theorem applied at the native number `42`. -/
theorem claim_C6_parseNumber_amended_witness : JsNum.isNaN (.fin 42) = false :=
  claim_C6_parseNumber_amended.1 (.num (.fin 42)) (.fin 42) (by decide)

/-- C8: the flattener recurses through each successful JSON-string decode —
flattening a decodable string equals flattening its decoded value at the
same path, at any nesting (shown also for a double-encoded string) — and is
a total structurally-recursive function of the finite payload, so it
terminates at every depth. -/
theorem claim_C8_flatten_decode (j : Json) (p : String) :
    flattenHelper (Json.strEnc j) p = flattenHelper j p ∧
    flatten (Json.strEnc (Json.strEnc j)) = flatten j :=
  ⟨rfl, rfl⟩

/-- C9: flattening is idempotent — reconstructing the flattener's output as
a payload of leaf-only objects (one key-value pair per flat entry) and
flattening again yields the same multiset of leaf values (in fact the same
sequence). -/
theorem claim_C9_flatten_idempotent (j : Json) :
    (((flatten (reconstruct (flatten j))).map FlatEntry.value : List Leaf) : Multiset Leaf) =
      (((flatten j).map FlatEntry.value : List Leaf) : Multiset Leaf) := by
  have h : (flatten (reconstruct (flatten j))).map FlatEntry.value
      = (flatten j).map FlatEntry.value := flattenArr_reconstruct_values (flatten j) "" 0
  rw [h]

theorem applyOunce_fst_noOverride (c : String) (g s sF : Option JsNum) :
    (applyOuncePreference c g s none sF).1 = g := by
  unfold applyOuncePreference
  split <;> cases g <;> rfl

theorem applyOunce_snd_noOverride (c : String) (g s gF : Option JsNum) :
    (applyOuncePreference c g s gF none).2 = s := by
  unfold applyOuncePreference
  split <;> cases s <;> rfl

/-- C2: extraction fails — with an `ExtractionError` carrying the first 50
top-level keys of the payload, never more — exactly when gold or silver
per-gram is unresolved after all heuristic steps and the per-ounce
post-processing; a success response carries exactly the two resolved
prices (no nulls, no substituted defaults). -/
theorem claim_C2_extraction_failure (data : Json) (c : String) :
    (extractRates data c = ApiResult.extractionError ((topKeys data).take 50) ↔
      (resolvedPrices data c).1 = none ∨ (resolvedPrices data c).2 = none) ∧
    (∀ ks, extractRates data c = ApiResult.extractionError ks →
      ks = (topKeys data).take 50 ∧ ks.length ≤ 50) ∧
    (∀ r, extractRates data c = ApiResult.ok r →
      (resolvedPrices data c).1 = some r.gold.perGram ∧
      (resolvedPrices data c).2 = some r.silver.perGram) := by
  have hlen : ((topKeys data).take 50).length ≤ 50 := by
    rw [List.length_take]
    exact min_le_left _ _
  rcases h : resolvedPrices data c with ⟨g, s⟩
  cases g with
  | none =>
    have he : extractRates data c = ApiResult.extractionError ((topKeys data).take 50) := by
      cases s <;> simp [extractRates, h]
    refine ⟨⟨fun _ => Or.inl rfl, fun _ => he⟩, fun ks hks => ?_, fun r hrr => ?_⟩
    · have h2 := he.symm.trans hks
      injection h2 with h3
      exact ⟨h3.symm, h3 ▸ hlen⟩
    · exact absurd (he.symm.trans hrr) (by simp)
  | some gv =>
    cases s with
    | none =>
      have he : extractRates data c = ApiResult.extractionError ((topKeys data).take 50) := by
        simp [extractRates, h]
      refine ⟨⟨fun _ => Or.inr rfl, fun _ => he⟩, fun ks hks => ?_, fun r hrr => ?_⟩
      · have h2 := he.symm.trans hks
        injection h2 with h3
        exact ⟨h3.symm, h3 ▸ hlen⟩
      · exact absurd (he.symm.trans hrr) (by simp)
    | some sv =>
      have he : extractRates data c = ApiResult.ok (buildRates data c gv sv) := by
        simp [extractRates, h]
      refine ⟨⟨fun hE => absurd (he.symm.trans hE) (by simp), fun hor => ?_⟩,
        fun ks hks => absurd (he.symm.trans hks) (by simp), fun r hrr => ?_⟩
      · rcases hor with h1 | h1 <;> exact absurd h1 (by simp)
      · have h2 := he.symm.trans hrr
        injection h2 with h3
        subst h3
        exact ⟨rfl, rfl⟩

/-- C2 witness: Scenario D — a payload with no resolvable fields yields the
extraction error with its single top-level key. -/
theorem claim_C2_extraction_failure_witness :
    extractRates payloadUnresolvable "usd" = ApiResult.extractionError ["foo"] ∧
    (["foo"] : List String).length ≤ 50 := by
  have h := (claim_C2_extraction_failure payloadUnresolvable "usd").1.mpr (Or.inl (by decide))
  have h2 : (topKeys payloadUnresolvable).take 50 = ["foo"] := by decide
  exact ⟨by rw [h, h2], by decide⟩

/-- C3 (amended): when the FIRST flattened entry whose key contains both
`gold` and `gram` (case-insensitively) has a parseable value, the heuristic
chain resolves `goldPerGram` to exactly that value; symmetrically for
`silver`+`gram`; and this value survives to the final resolution whenever
the respective per-ounce override does not fire. -/
theorem claim_C3_metal_gram_amended (data : Json) (c : String) :
    (∀ e n, pickByKeyIncludes (flatten data) ["gold", "gram"] = some e →
      parseNumber e.value = some n → (heuristicPrices (flatten data) c).1 = some n) ∧
    (∀ e n, pickByKeyIncludes (flatten data) ["silver", "gram"] = some e →
      parseNumber e.value = some n → (heuristicPrices (flatten data) c).2 = some n) ∧
    (∀ e n, pickByKeyIncludes (flatten data) ["gold", "gram"] = some e →
      parseNumber e.value = some n →
      goldFromOunce (flatten data) c (gramToOunceResolved (flatten data)) = none →
      (resolvedPrices data c).1 = some n) ∧
    (∀ e n, pickByKeyIncludes (flatten data) ["silver", "gram"] = some e →
      parseNumber e.value = some n →
      silverFromOunce (flatten data) c (gramToOunceResolved (flatten data)) = none →
      (resolvedPrices data c).2 = some n) := by
  have hg : ∀ e n, pickByKeyIncludes (flatten data) ["gold", "gram"] = some e →
      parseNumber e.value = some n → (heuristicPrices (flatten data) c).1 = some n := by
    intro e n he hn
    have h1 : step1Gold (flatten data) = some n := by
      simp [step1Gold, he, hn]
    have h4 : goldAfter4 (flatten data) c = some n := by
      simp [goldAfter4, goldAfter3, goldAfter2, h1, resolveStep]
    exact heuristicPrices_fst_some _ c n h4
  have hs : ∀ e n, pickByKeyIncludes (flatten data) ["silver", "gram"] = some e →
      parseNumber e.value = some n → (heuristicPrices (flatten data) c).2 = some n := by
    intro e n he hn
    have h1 : step1Silver (flatten data) = some n := by
      simp [step1Silver, he, hn]
    have h4 : silverAfter4 (flatten data) c = some n := by
      simp [silverAfter4, silverAfter3, silverAfter2, h1, resolveStep]
    exact heuristicPrices_snd_some _ c n h4
  refine ⟨hg, hs, fun e n he hn hno => ?_, fun e n he hn hno => ?_⟩
  · unfold resolvedPrices
    rw [hno, applyOunce_fst_noOverride]
    exact hg e n he hn
  · unfold resolvedPrices
    rw [hno, applyOunce_snd_noOverride]
    exact hs e n he hn

/-- C3 counterexample: the claim as stated quantifies over EVERY gold-gram
entry with a parseable value; `payloadTwoGold` contains such an entry with
value 9, yet the extractor resolves gold to 5 (the first match). -/
theorem claim_C3_metal_gram_counterexample :
    (⟨"gold_gram_b", "gold_gram_b", .num (.fin 9)⟩ : FlatEntry) ∈ flatten payloadTwoGold ∧
    strIncludes (lowerStr "gold_gram_b") "gold" = true ∧
    strIncludes (lowerStr "gold_gram_b") "gram" = true ∧
    parseNumber (.num (.fin 9)) = some (.fin 9) ∧
    (resolvedPrices payloadTwoGold "usd").1 = some (.fin 5) ∧
    JsNum.fin 5 ≠ JsNum.fin 9 := by decide

/-- C3 witness: Scenario A — the amended theorem applied to `payloadA`. -/
theorem claim_C3_metal_gram_amended_witness :
    (heuristicPrices (flatten payloadA) "usd").1 = some (.fin 100) ∧
    (heuristicPrices (flatten payloadA) "usd").2 = some (.fin (mkRat 6 5)) ∧
    (resolvedPrices payloadA "usd").1 = some (.fin 100) := by
  have h := claim_C3_metal_gram_amended payloadA "usd"
  exact ⟨h.1 ⟨"gold_gram_in_usd", "gold_gram_in_usd", .num (.fin 100)⟩ (.fin 100)
      (by decide) (by decide),
    h.2.1 ⟨"silver_gram_in_usd", "silver_gram_in_usd", .num (.fin (mkRat 6 5))⟩
      (.fin (mkRat 6 5)) (by decide) (by decide),
    h.2.2.1 ⟨"gold_gram_in_usd", "gold_gram_in_usd", .num (.fin 100)⟩ (.fin 100)
      (by decide) (by decide) (by decide)⟩

/-- C7: every successful extraction satisfies
`perOunce = perGram / gramToOunceFactor` and `perKg = perGram * 1000` for
both metals (exactly, in the rational model); in particular for finite
values the real products/quotients are obtained, so gold at 100 per gram
gives 100000 per kilogram. -/
theorem claim_C7_unit_conversion (data : Json) (c : String) (r : CanonicalRates)
    (h : extractRates data c = ApiResult.ok r) :
    (r.gold.perOunce = jsDiv r.gold.perGram (gramToOunceFinal data (flatten data)) ∧
     r.silver.perOunce = jsDiv r.silver.perGram (gramToOunceFinal data (flatten data))) ∧
    (r.gold.perKg = jsMul r.gold.perGram (.fin 1000) ∧
     r.silver.perKg = jsMul r.silver.perGram (.fin 1000)) ∧
    (∀ q, r.gold.perGram = .fin q → r.gold.perKg = .fin (q * 1000)) ∧
    (∀ q f, r.gold.perGram = .fin q → gramToOunceFinal data (flatten data) = .fin f →
      f ≠ 0 → r.gold.perOunce = .fin (q / f)) := by
  rcases hp : resolvedPrices data c with ⟨g, s⟩
  unfold extractRates at h
  rw [hp] at h
  cases g with
  | none => cases s <;> exact absurd h (by simp)
  | some gv =>
    cases s with
    | none => exact absurd h (by simp)
    | some sv =>
      have h2 : ApiResult.ok (buildRates data c gv sv) = ApiResult.ok r := h
      injection h2 with h3
      subst h3
      refine ⟨⟨rfl, rfl⟩, ⟨rfl, rfl⟩, fun q hq => ?_, fun q f hq hf hf0 => ?_⟩
      · have hgv : gv = JsNum.fin q := hq
        rw [show (buildRates data c gv sv).gold.perKg = jsMul gv (.fin 1000) from rfl, hgv]
        simp [jsMul, qmul_eq]
      · have hgv : gv = JsNum.fin q := hq
        rw [show (buildRates data c gv sv).gold.perOunce
            = jsDiv gv (gramToOunceFinal data (flatten data)) from rfl, hgv, hf]
        simp [jsDiv, hf0, qdiv_eq]

/-- C7 witness: Scenario A — gold at 100 per gram yields 100000 per
kilogram. -/
theorem claim_C7_unit_conversion_witness :
    goldPerKgOf (extractRates payloadA "usd") = some (.fin 100000) := by
  cases hE : extractRates payloadA "usd" with
  | extractionError ks =>
    have h1 : errKeysOf (extractRates payloadA "usd") = some ks := by rw [hE]; rfl
    have h2 : errKeysOf (extractRates payloadA "usd") = none := by decide
    exact absurd (h2 ▸ h1) (by simp)
  | ok r =>
    have hg : r.gold.perGram = JsNum.fin 100 := by
      have h1 : goldPerGramOf (extractRates payloadA "usd") = some r.gold.perGram := by
        rw [hE]; rfl
      have h2 : goldPerGramOf (extractRates payloadA "usd") = some (.fin 100) := by decide
      exact Option.some.inj (h1.symm.trans h2)
    have hK := ((claim_C7_unit_conversion payloadA "usd" r hE).2.2.1) 100 hg
    show some r.gold.perKg = some (.fin 100000)
    rw [hK]
    norm_num

/-- C4: when heuristic steps 1-4 leave gold or silver unresolved, step 5
assigns the head of the descending-sorted gram-keyed numeric candidates —
a maximal one — to a still-unresolved gold, and the second element — maximal
among the remaining ones — to a still-unresolved silver. -/
theorem claim_C4_gram_fallback (data : Json) (c : String) :
    (∀ x xs, goldAfter4 (flatten data) c = none →
      gramCandidates (flatten data) c = x :: xs →
      (afterStep5 (goldAfter4 (flatten data) c) (silverAfter4 (flatten data) c)
        (flatten data) c).1 = some x.num ∧
      ∀ z ∈ gramCandidates (flatten data) c, jsLeB z.num x.num = true) ∧
    (∀ x y ys, silverAfter4 (flatten data) c = none →
      gramCandidates (flatten data) c = x :: y :: ys →
      (afterStep5 (goldAfter4 (flatten data) c) (silverAfter4 (flatten data) c)
        (flatten data) c).2 = some y.num ∧
      ∀ z ∈ y :: ys, jsLeB z.num y.num = true) := by
  have hp : (gramCandidates (flatten data) c).Pairwise candGE :=
    sortByNumDesc_sorted (toCands ((flatten data).filter (gramCandFilter c)))
  constructor
  · intro x xs hg hc
    constructor
    · rw [hg]
      unfold afterStep5
      simp [assignTopTwo, hc]
    · rw [hc]
      rw [hc] at hp
      exact pairwise_head_max hp
  · intro x y ys hs hc
    constructor
    · rw [hs]
      unfold afterStep5
      simp [assignTopTwo, hc]
    · rw [hc] at hp
      exact pairwise_head_max (List.pairwise_cons.mp hp).2
  
/-- C4 witness: Scenario C — two gram-keyed values 85 and 1.05 with no
metal-specific keys give gold 85 and silver 1.05. -/
theorem claim_C4_gram_fallback_witness :
    (afterStep5 (goldAfter4 (flatten payloadGramPair) "usd")
      (silverAfter4 (flatten payloadGramPair) "usd") (flatten payloadGramPair) "usd").1
      = some (.fin 85) ∧
    (afterStep5 (goldAfter4 (flatten payloadGramPair) "usd")
      (silverAfter4 (flatten payloadGramPair) "usd") (flatten payloadGramPair) "usd").2
      = some (.fin (mkRat 21 20)) := by
  have h := claim_C4_gram_fallback payloadGramPair "usd"
  have hc : gramCandidates (flatten payloadGramPair) "usd" =
      [⟨⟨"a_gram", "a_gram", .num (.fin 85)⟩, .fin 85⟩,
       ⟨⟨"b_gram", "b_gram", .num (.fin (mkRat 21 20))⟩, .fin (mkRat 21 20)⟩] := by decide
  exact ⟨(h.1 _ _ (by decide) hc).1, (h.2 _ _ _ (by decide) hc).1⟩

/-- C5 (amended): the step-3 gold fallback fires exactly on an entry whose
lower-cased key is `gram` OR contains `gram_in`; when no entry satisfies
either, step 3 leaves gold unresolved.  The silver fallback fires exactly on
a key equal to `silver` or containing `silver_gram`. -/
theorem claim_C5_step3_amended (entries : List FlatEntry) :
    (∀ e, step3GoldEntry entries = some e →
      lcKey e = "gram" ∨ strIncludes (lcKey e) "gram_in" = true) ∧
    ((∀ e ∈ entries, lcKey e ≠ "gram" ∧ strIncludes (lcKey e) "gram_in" = false) →
      step3GoldEntry entries = none) ∧
    (∀ e, step3SilverEntry entries = some e →
      lcKey e = "silver" ∨ strIncludes (lcKey e) "silver_gram" = true) ∧
    ((∀ e ∈ entries, lcKey e ≠ "silver" ∧ strIncludes (lcKey e) "silver_gram" = false) →
      step3SilverEntry entries = none) := by
  refine ⟨fun e he => ?_, fun hno => ?_, fun e he => ?_, fun hno => ?_⟩
  · unfold step3GoldEntry at he
    simpa using List.find?_some he
  · unfold step3GoldEntry
    apply List.find?_eq_none.mpr
    intro e he
    have h2 := hno e he
    simp [h2.1, h2.2]
  · unfold step3SilverEntry at he
    simpa using List.find?_some he
  · unfold step3SilverEntry
    apply List.find?_eq_none.mpr
    intro e he
    have h2 := hno e he
    simp [h2.1, h2.2]

/-- C5 counterexample: `payloadGramInEur` has no key equal to `gram`, yet
step 3 resolves gold to 50 through the `gram_in` disjunct (the claim says
resolution should instead fall to step 4, whose `xau` entry holds 70). -/
theorem claim_C5_step3_counterexample :
    (∀ e ∈ flatten payloadGramInEur, lcKey e ≠ "gram") ∧
    goldAfter2 (flatten payloadGramInEur) "usd" = none ∧
    goldAfter3 (flatten payloadGramInEur) "usd" = some (.fin 50) ∧
    (step4GoldEntry (flatten payloadGramInEur)).bind (fun e => parseNumber e.value)
      = some (.fin 70) ∧
    JsNum.fin 50 ≠ JsNum.fin 70 := by decide

/-- C5 witness: the amended theorem applied to the entries of
`payloadGramInEur`, whose step-3 match is the `gram_in_eur` entry. -/
theorem claim_C5_step3_amended_witness :
    lcKey ⟨"gram_in_eur", "gram_in_eur", .num (.fin 50)⟩ = "gram" ∨
    strIncludes (lcKey ⟨"gram_in_eur", "gram_in_eur", .num (.fin 50)⟩) "gram_in" = true :=
  (claim_C5_step3_amended (flatten payloadGramInEur)).1
    ⟨"gram_in_eur", "gram_in_eur", .num (.fin 50)⟩ (by decide)

/-- C1 (amended): the per-ounce-derived per-gram value exists only when a
`gram_to_ounce` factor entry is present in the payload with a parseable,
truthy (nonzero) value; it is then the located per-ounce value times that
factor.  For a non-USD currency it replaces any value resolved by steps 1-6;
for USD it is used only when the heuristic value is still unresolved. -/
theorem claim_C1_ounce_override_amended (data : Json) (c : String) (f : JsNum)
    (hf : gramToOunceResolved (flatten data) = some f) (ht : f.truthy = true) :
    (c ≠ "usd" → ∀ e v, sOunceEntry (flatten data) c = some e →
      parseNumber e.value = some v → (resolvedPrices data c).2 = some (jsMul v f)) ∧
    (c ≠ "usd" → ∀ e v, gOunceEntry (flatten data) c = some e →
      parseNumber e.value = some v → (resolvedPrices data c).1 = some (jsMul v f)) ∧
    (c = "usd" → ∀ x, (heuristicPrices (flatten data) c).2 = some x →
      (resolvedPrices data c).2 = some x) ∧
    (c = "usd" → (heuristicPrices (flatten data) c).2 = none →
      ∀ e v, sOunceEntry (flatten data) c = some e → parseNumber e.value = some v →
      (resolvedPrices data c).2 = some (jsMul v f)) := by
  refine ⟨fun hc e v he hv => ?_, fun hc e v he hv => ?_, fun hc x hx => ?_,
    fun hc hnone e v he hv => ?_⟩
  · have hS : silverFromOunce (flatten data) c (gramToOunceResolved (flatten data))
        = some (jsMul v f) := by
      unfold silverFromOunce
      rw [he, hf]
      exact fromOunce_some hv ht
    unfold resolvedPrices
    rw [hS]
    exact applyOunce_nonUsd_snd hc _ _ _ _
  · have hG : goldFromOunce (flatten data) c (gramToOunceResolved (flatten data))
        = some (jsMul v f) := by
      unfold goldFromOunce
      rw [he, hf]
      exact fromOunce_some hv ht
    unfold resolvedPrices
    rw [hG]
    exact applyOunce_nonUsd_fst hc _ _ _ _
  · subst hc
    unfold resolvedPrices
    rw [hx]
    exact applyOunce_usd_snd_keep _ _ _ _
  · subst hc
    have hS : silverFromOunce (flatten data) "usd" (gramToOunceResolved (flatten data))
        = some (jsMul v f) := by
      unfold silverFromOunce
      rw [he, hf]
      exact fromOunce_some hv ht
    unfold resolvedPrices
    rw [hnone, hS]
    exact applyOunce_usd_snd_fill _ _ _

/-- C1 counterexample: the claim says the override multiplies by the fixed
default 0.0321507 when no factor field is present, but without a factor
field no per-ounce-derived value is computed at all: the silver per-ounce
entry of `payloadNoFactor` is located and parseable, yet the final silver
per-gram stays at the heuristic value 2 instead of 93000 times the
default. -/
theorem claim_C1_ounce_override_counterexample :
    gramToOunceResolved (flatten payloadNoFactor) = none ∧
    sOunceEntry (flatten payloadNoFactor) "inr"
      = some ⟨"silver_ounce_in_inr", "silver_ounce_in_inr", .num (.fin 93000)⟩ ∧
    parseNumber (.num (.fin 93000)) = some (.fin 93000) ∧
    silverPerGramOf (extractRates payloadNoFactor "inr") = some (.fin 2) ∧
    some (JsNum.fin 2)
      ≠ some (jsMul (.fin 93000) (.fin (mkRat 321507 10000000))) := by decide

/-- C1 witness: Scenario E with the factor present in the payload — the
silver heuristic value 2 is overridden by 93000 × 0.0321507. -/
theorem claim_C1_ounce_override_amended_witness :
    (resolvedPrices payloadWithFactor "inr").2
      = some (jsMul (.fin 93000) (.fin (mkRat 321507 10000000))) :=
  (claim_C1_ounce_override_amended payloadWithFactor "inr"
      (.fin (mkRat 321507 10000000)) (by decide) (by decide)).1 (by decide)
    ⟨"silver_ounce_in_inr", "silver_ounce_in_inr", .num (.fin 93000)⟩
    (.fin 93000) (by decide) (by decide)

/-- C10 (amended): for a non-USD currency with a truthy factor entry, when
there is no `ounce_in_<currency>` key/path match and the FIRST entry whose
key contains both `ounce` and the currency is the
`silver_ounce_in_<currency>` entry itself, the gold fallback locates that
silver entry, so gold is overridden to the silver per-ounce value times the
factor and the two final per-gram prices are equal. -/
theorem claim_C10_gold_fallback_amended (data : Json) (c : String) (f : JsNum)
    (e : FlatEntry) (v : JsNum)
    (hc : c ≠ "usd")
    (hf : gramToOunceResolved (flatten data) = some f) (ht : f.truthy = true)
    (hnk : findKeyEq (flatten data) ("ounce_in_" ++ c) = none)
    (hfirst : (flatten data).find? (fun x =>
      strIncludes (lcKey x) "ounce" && strIncludes (lcKey x) c) = some e)
    (hsk : findKeyEq (flatten data) ("silver_ounce_in_" ++ c) = some e)
    (hv : parseNumber e.value = some v) :
    (resolvedPrices data c).1 = some (jsMul v f) ∧
    (resolvedPrices data c).2 = some (jsMul v f) ∧
    (resolvedPrices data c).1 = (resolvedPrices data c).2 := by
  have hg : gOunceEntry (flatten data) c = some e := by
    unfold gOunceEntry
    rw [hnk]
    simpa [Option.orElse] using hfirst
  have hs : sOunceEntry (flatten data) c = some e := by
    unfold sOunceEntry
    rw [hsk]
    rfl
  have hG : goldFromOunce (flatten data) c (gramToOunceResolved (flatten data))
      = some (jsMul v f) := by
    unfold goldFromOunce
    rw [hg, hf]
    exact fromOunce_some hv ht
  have hS : silverFromOunce (flatten data) c (gramToOunceResolved (flatten data))
      = some (jsMul v f) := by
    unfold silverFromOunce
    rw [hs, hf]
    exact fromOunce_some hv ht
  have h1 : (resolvedPrices data c).1 = some (jsMul v f) := by
    unfold resolvedPrices
    rw [hG]
    exact applyOunce_nonUsd_fst hc _ _ _ _
  have h2 : (resolvedPrices data c).2 = some (jsMul v f) := by
    unfold resolvedPrices
    rw [hS]
    exact applyOunce_nonUsd_snd hc _ _ _ _
  exact ⟨h1, h2, h1.trans h2.symm⟩

/-- C10 counterexample: `payloadGoldOunceFirst` satisfies every hypothesis
of the claim (factor entry present, parseable `silver_ounce_in_inr`, no
`ounce_in_inr` key or path suffix), yet the gold fallback finds the earlier
`gold_ounce_in_inr` entry, so the final gold and silver per-gram prices
differ — the claim's conclusion that they are equal is false here. -/
theorem claim_C10_gold_fallback_counterexample :
    gramToOunceResolved (flatten payloadGoldOunceFirst)
      = some (.fin (mkRat 321507 10000000)) ∧
    (∀ x ∈ flatten payloadGoldOunceFirst, lcKey x ≠ "ounce_in_inr") ∧
    findKeyEq (flatten payloadGoldOunceFirst) "ounce_in_inr" = none ∧
    findKeyEq (flatten payloadGoldOunceFirst) "silver_ounce_in_inr"
      = some ⟨"silver_ounce_in_inr", "silver_ounce_in_inr", .num (.fin 93000)⟩ ∧
    (resolvedPrices payloadGoldOunceFirst "inr").1
      = some (jsMul (.fin 200000) (.fin (mkRat 321507 10000000))) ∧
    (resolvedPrices payloadGoldOunceFirst "inr").2
      = some (jsMul (.fin 93000) (.fin (mkRat 321507 10000000))) ∧
    (resolvedPrices payloadGoldOunceFirst "inr").1
      ≠ (resolvedPrices payloadGoldOunceFirst "inr").2 := by decide

/-- C10 witness: the amended theorem applied to `payloadSilverOunceOnly`,
where the silver per-ounce entry is the first `ounce`+currency match. -/
theorem claim_C10_gold_fallback_amended_witness :
    (resolvedPrices payloadSilverOunceOnly "inr").1
      = some (jsMul (.fin 93000) (.fin (mkRat 321507 10000000))) ∧
    (resolvedPrices payloadSilverOunceOnly "inr").1
      = (resolvedPrices payloadSilverOunceOnly "inr").2 := by
  have h := claim_C10_gold_fallback_amended payloadSilverOunceOnly "inr"
    (.fin (mkRat 321507 10000000))
    ⟨"silver_ounce_in_inr", "silver_ounce_in_inr", .num (.fin 93000)⟩ (.fin 93000)
    (by decide) (by decide) (by decide) (by decide) (by decide) (by decide) (by decide)
  exact ⟨h.1, h.2.2⟩
